import Mathlib

/-
Shallow embedding of the BaskIt command resolution and execution engine.

The definitions below are translated from the Python sources:
  - `src/baskit/domain/types.py`      (HebrewText, Quantity)
  - `src/baskit/services/base_service.py` (Result)
  - `src/baskit/services/item_service.py` (ItemService)
  - `src/baskit/services/list_service.py` (ListService)
  - `src/baskit/ai/tool_service.py`   (ToolService.resolve_item)
  - `src/baskit/ai/errors.py`         (ToolExecutionResult)
  - `src/baskit/ai/handlers.py`       (ToolExecutor dispatch table)
  - `src/baskit/web/app.py`           (process_smart_input batch loop)

Modelling conventions:
  - The SQLAlchemy store is a record `St` of user, list and item rows;
    `session.get` becomes `List.find?` on the primary key, row updates
    become `List.map`, row deletion becomes `List.filter`.
  - Timestamps (`datetime.now`) are an explicit `Nat` parameter `now`.
  - Python `int` is `Int`; database ids are `Nat`.
  - Python float comparison `hebrew_chars / text_length < 0.7` is modelled
    as the exact rational comparison `10 * hebrew_chars < 7 * text_length`.
  - Python truthiness on strings and optional ids ("" and 0 are falsy) is
    modelled explicitly where the source relies on it.
-/

namespace BaskIt

/-! ## Result type (`services/base_service.py`) -/

/-- `Result` from `base_service.py`: success flag, optional payload, error
string, suggestions, and the metadata dict (modelled as an association
list of string pairs, which is how the code uses it). -/
structure Result (α : Type) where
  success : Bool
  data : Option α
  error : String
  suggestions : List String
  metadata : List (String × String)
deriving Repr, DecidableEq

/-- `Result.ok(data, **metadata)`. -/
def Result.ok {α : Type} (data : α) (metadata : List (String × String)) : Result α :=
  ⟨true, some data, "", [], metadata⟩

/-- `Result.fail(error, suggestions)`: `error or "שגיאה לא ידועה"` replaces a
falsy (empty) error string with the default message. -/
def Result.fail {α : Type} (error : String) (suggestions : List String) : Result α :=
  ⟨false, none, if error = "" then "שגיאה לא ידועה" else error, suggestions, []⟩

/-! ## Domain types (`domain/types.py`) -/

/-- Python `str.isspace` for the whitespace characters that occur in the
ASCII/Hebrew texts the app handles. -/
def pyIsSpace (c : Char) : Bool :=
  c = ' ' || c = '\t' || c = '\n' || c = '\r' || c = '\x0b' || c = '\x0c'

/-- Membership in the Hebrew Unicode block, `'֐' <= c <= '׿'`. -/
def isHebrewChar (c : Char) : Bool :=
  0x0590 ≤ c.toNat && c.toNat ≤ 0x05FF

/-- Python `str.strip()` on a character list. -/
def stripList (l : List Char) : List Char :=
  ((l.dropWhile pyIsSpace).reverse.dropWhile pyIsSpace).reverse

/-- Python `str.strip()`. -/
def pyStrip (s : String) : String := String.mk (stripList s.data)

/-- Python `str.lower()` (Hebrew letters have no case, ASCII is lowered). -/
def pyLower (s : String) : String := String.mk (s.data.map Char.toLower)

/-- `sum(1 for c in text if HEBREW_LO <= c <= HEBREW_HI)`. -/
def hebrewCount (l : List Char) : Nat := (l.filter isHebrewChar).length

/-- `sum(1 for c in text if c.isspace())`. -/
def spaceCount (l : List Char) : Nat := (l.filter pyIsSpace).length

/-- `HebrewText.__new__` from `domain/types.py`.  `not value or not
value.strip()` is equivalent to the strip being empty.  The float test
`hebrew_chars / text_length < 0.7` is modelled as the exact rational
comparison `10 * hebrew_chars < 7 * text_length`. -/
def hebrewText (value : String) : Except String String :=
  if stripList value.data = [] then Except.error "טקסט לא יכול להיות ריק"
  else
    let text := stripList value.data
    let hc := hebrewCount text
    let n := text.length - spaceCount text
    if n = 0 then Except.error "טקסט לא יכול להיות ריק"
    else if hc = 0 ∨ 10 * hc < 7 * n then Except.error "טקסט חייב להיות בעיקר בעברית"
    else Except.ok (String.mk text)

/-- The validated `Quantity` value object from `domain/types.py`. -/
structure Quantity where
  value : Int
  unit : String
deriving Repr, DecidableEq

/-- Construction of `Quantity(value=..., unit=...)`: the pydantic field
constraints `ge=0`, `le=99` on `value` run first, then the
`value_must_be_positive` validator (which only rejects `v < 0`), then the
`min_length=1`, `max_length=20` constraints on `unit`. -/
def Quantity.make (value : Int) (unit : String) : Except String Quantity :=
  if value < 0 then Except.error "Input should be greater than or equal to 0"
  else if 99 < value then Except.error "Input should be less than or equal to 99"
  else if value < 0 then Except.error "כמות חייבת להיות חיובית"
  else if unit.length < 1 then Except.error "String should have at least 1 character"
  else if 20 < unit.length then Except.error "String should have at most 20 characters"
  else Except.ok ⟨value, unit⟩

/-! ## Store rows (`models/user.py`, `models/list.py`, `models/item.py`) -/

/-- A `users` row: primary key and nullable `default_list_id`. -/
structure UserR where
  id : Nat
  defaultListId : Option Nat
deriving Repr, DecidableEq

/-- A `grocery_lists` row. -/
structure GroceryListR where
  id : Nat
  name : String
  ownerId : Nat
  isDeleted : Bool
  deletedAt : Option Nat
  deletedBy : Option Nat
deriving Repr, DecidableEq

/-- A `grocery_items` row. -/
structure GroceryItemR where
  id : Nat
  name : String
  normalizedName : String
  quantity : Int
  unit : String
  isBought : Bool
  boughtAt : Option Nat
  listId : Nat
  createdBy : Nat
  updatedBy : Option Nat
deriving Repr, DecidableEq

/-- The database state: the three tables plus the next fresh primary keys. -/
structure St where
  users : List UserR
  lists : List GroceryListR
  items : List GroceryItemR
  nextListId : Nat
  nextItemId : Nat
deriving Repr, DecidableEq

/-- `session.get(User, uid)`. -/
def St.getUser (st : St) (uid : Nat) : Option UserR :=
  st.users.find? (fun u => u.id == uid)

/-- `session.get(GroceryList, lid)`. -/
def St.getList (st : St) (lid : Nat) : Option GroceryListR :=
  st.lists.find? (fun l => l.id == lid)

/-- `session.get(GroceryItem, iid)`. -/
def St.getItem (st : St) (iid : Nat) : Option GroceryItemR :=
  st.items.find? (fun i => i.id == iid)

/-- Mutate the user row with primary key `uid`. -/
def St.updateUser (st : St) (uid : Nat) (f : UserR → UserR) : St :=
  { st with users := st.users.map (fun u => if u.id == uid then f u else u) }

/-- Mutate the list row with primary key `lid`. -/
def St.updateList (st : St) (lid : Nat) (f : GroceryListR → GroceryListR) : St :=
  { st with lists := st.lists.map (fun l => if l.id == lid then f l else l) }

/-- Mutate the item row with primary key `iid`. -/
def St.updateItem (st : St) (iid : Nat) (f : GroceryItemR → GroceryItemR) : St :=
  { st with items := st.items.map (fun i => if i.id == iid then f i else i) }

/-- `session.delete(item)`. -/
def St.removeItem (st : St) (iid : Nat) : St :=
  { st with items := st.items.filter (fun i => !(i.id == iid)) }

/-- `session.delete(list_)` with the relationship cascade on items. -/
def St.removeList (st : St) (lid : Nat) : St :=
  { st with
    lists := st.lists.filter (fun l => !(l.id == lid)),
    items := st.items.filter (fun i => !(i.listId == lid)) }

/-! ## Item service (`services/item_service.py`) -/

/-- The `ItemLocation` dataclass. -/
structure ItemLocation where
  listId : Nat
  listName : String
  itemId : Nat
  quantity : Int
  unit : String
  isBought : Bool
deriving Repr, DecidableEq

/-- `ItemService.add_item(list_id, name, quantity, unit)`: validates the
Hebrew name and the quantity, re-checks list existence, ownership and
soft-delete state, then inserts the new row.  `uid` is the service's
`user_id`. -/
def addItem (uid listId : Nat) (name : String) (quantity : Int) (unit : String)
    (st : St) : Result GroceryItemR × St :=
  match hebrewText name with
  | Except.error e => (Result.fail e [], st)
  | Except.ok hname =>
    match Quantity.make quantity unit with
    | Except.error e =>
      (Result.fail
        (if quantity ≤ 0 then "כמות חייבת להיות חיובית"
         else if 99 < quantity then "כמות לא יכולה להיות גדולה מ-99"
         else e) [], st)
    | Except.ok q =>
      match st.getList listId with
      | none => (Result.fail "רשימה לא נמצאה" [], st)
      | some l =>
        if l.ownerId ≠ uid then (Result.fail "אין הרשאה להוסיף פריטים לרשימה זו" [], st)
        else if l.isDeleted then (Result.fail "לא ניתן להוסיף פריטים לרשימה מחוקה" [], st)
        else
          let normalized := pyLower (pyStrip hname)
          let item : GroceryItemR :=
            ⟨st.nextItemId, hname, normalized, q.value, q.unit, false, none, listId, uid, none⟩
          (Result.ok item [],
           { st with items := st.items ++ [item], nextItemId := st.nextItemId + 1 })

/-- `ItemService.mark_bought(item_id, is_bought)`: ownership and
soft-delete checks, then sets `is_bought`, `bought_at` (the current time
when marking, `None` when unmarking) and `updated_by`. -/
def markBought (uid itemId : Nat) (isBought : Bool) (now : Nat)
    (st : St) : Result GroceryItemR × St :=
  match st.getItem itemId with
  | none => (Result.fail "פריט לא נמצא" [], st)
  | some item =>
    match st.getList item.listId with
    | none => (Result.fail "אין הרשאה לעדכן פריט זה" [], st)
    | some l =>
      if l.ownerId ≠ uid then (Result.fail "אין הרשאה לעדכן פריט זה" [], st)
      else if l.isDeleted then (Result.fail "לא ניתן לעדכן פריטים ברשימה מחוקה" [], st)
      else
        let item' := { item with
          isBought := isBought,
          boughtAt := if isBought then some now else none,
          updatedBy := some uid }
        (Result.ok item' [], st.updateItem itemId (fun _ => item'))

/-- `ItemService.reduce_quantity(item_id, step)`: if the new quantity is
`<= 0` the row is deleted and a *success* result with an informational
message (in the metadata, via `Result.ok(item, message=...)`) is returned;
otherwise the new quantity is validated as a `Quantity` and stored. -/
def reduceQuantity (uid itemId : Nat) (step : Int) (st : St) :
    Result GroceryItemR × St :=
  match st.getItem itemId with
  | none => (Result.fail "פריט לא נמצא" [], st)
  | some item =>
    match st.getList item.listId with
    | none => (Result.fail "אין הרשאה לעדכן פריט זה" [], st)
    | some l =>
      if l.ownerId ≠ uid then (Result.fail "אין הרשאה לעדכן פריט זה" [], st)
      else if l.isDeleted then (Result.fail "לא ניתן לעדכן פריטים ברשימה מחוקה" [], st)
      else
        let newQuantity := item.quantity - step
        if newQuantity ≤ 0 then
          (Result.ok item [("message", "הפריט הוסר מהרשימה כי הכמות ירדה ל-0")],
           st.removeItem itemId)
        else
          match Quantity.make newQuantity item.unit with
          | Except.error e => (Result.fail e [], st)
          | Except.ok q =>
            let item' := { item with quantity := q.value, updatedBy := some uid }
            (Result.ok item' [], st.updateItem itemId (fun _ => item'))

/-- `ItemService.get_item_locations(name, include_bought)`: all rows whose
normalized name matches, joined to the active lists of the owner. -/
def getItemLocations (uid : Nat) (name : String) (includeBought : Bool)
    (st : St) : Result (List ItemLocation) :=
  match hebrewText name with
  | Except.error e => Result.fail e []
  | Except.ok hname =>
    let normalized := pyLower (pyStrip hname)
    let locations := st.items.filterMap (fun i =>
      match st.getList i.listId with
      | some l =>
        if i.normalizedName == normalized && l.ownerId == uid && !l.isDeleted
            && (includeBought || !i.isBought) then
          some ⟨l.id, l.name, i.id, i.quantity, i.unit, i.isBought⟩
        else none
      | none => none)
    if locations = [] then
      Result.fail "פריט לא נמצא באף רשימה"
        (if !includeBought then ["נסה לחפש בשם אחר", "כולל פריטים שנקנו"] else [])
    else Result.ok locations []

/-! ## List service (`services/list_service.py`) -/

/-- The owner's *active* lists sharing a name (the first duplicate query of
`create_list`). -/
def activeSameName (st : St) (uid : Nat) (hname : String) : List GroceryListR :=
  st.lists.filter (fun l => l.name == hname && l.ownerId == uid && !l.isDeleted)

/-- The owner's *soft-deleted* lists sharing a name (the second duplicate
query of `create_list`). -/
def deletedSameName (st : St) (uid : Nat) (hname : String) : List GroceryListR :=
  st.lists.filter (fun l => l.name == hname && l.ownerId == uid && l.isDeleted)

/-- The owner's active lists other than `excludeId` (the auto-default query
of `create_list` and the repoint query of `delete_list`). -/
def activeOtherLists (lists : List GroceryListR) (uid excludeId : Nat) :
    List GroceryListR :=
  lists.filter (fun l => l.ownerId == uid && !l.isDeleted && !(l.id == excludeId))

/-- `ListService.create_list(name)`: `_validate_name`, `HebrewText`
validation, duplicate checks against active and then soft-deleted lists,
insertion, and auto-promotion to default when the owner has no other
active list.  The auto-default query runs after the flush, so it ranges
over the table including the new row but excludes it by id. -/
def createList (uid : Nat) (name : String) (st : St) : Result GroceryListR × St :=
  if stripList name.data = [] then (Result.fail "שם לא יכול להיות ריק" [], st)
  else
    match hebrewText name with
    | Except.error e => (Result.fail e [], st)
    | Except.ok hname =>
      if activeSameName st uid hname ≠ [] then
        (Result.fail ("השם \x27" ++ hname ++ "\x27 כבר קיים")
          ["נסה שם אחר", "הוסף מספר או תיאור ל\x27" ++ hname ++ "\x27"], st)
      else if deletedSameName st uid hname ≠ [] then
        (Result.fail ("רשימה בשם \x27" ++ hname ++ "\x27 נמחקה בעבר")
          ["שחזר את הרשימה המחוקה", "בחר שם אחר לרשימה החדשה"], st)
      else
        let newList : GroceryListR := ⟨st.nextListId, hname, uid, false, none, none⟩
        let lists' := st.lists ++ [newList]
        let st' : St := { st with lists := lists', nextListId := st.nextListId + 1 }
        let st'' :=
          if activeOtherLists lists' uid newList.id = [] then
            st'.updateUser uid (fun u => { u with defaultListId := some newList.id })
          else st'
        (Result.ok newList [], st'')

/-- `ListService.delete_list(list_id, soft)`: existence and ownership
checks; soft delete stamps `is_deleted`/`deleted_at`/`deleted_by` and, when
the deleted list was the owner's default, repoints `default_list_id` to the
first remaining active list or `None`; hard delete removes the row (and
cascades to its items). -/
def deleteList (uid listId : Nat) (soft : Bool) (now : Nat) (st : St) :
    Result GroceryListR × St :=
  match st.getList listId with
  | none => (Result.fail "רשימה לא נמצאה" [], st)
  | some l =>
    if l.ownerId ≠ uid then (Result.fail "אין הרשאה למחוק רשימה זו" [], st)
    else if soft then
      let l' := { l with isDeleted := true, deletedAt := some now, deletedBy := some uid }
      let st1 := st.updateList listId (fun _ => l')
      let st2 :=
        match st1.getUser uid with
        | some u =>
          if u.defaultListId == some listId then
            let newDefault := (activeOtherLists st1.lists uid listId).head?
            st1.updateUser uid
              (fun v => { v with defaultListId := newDefault.map GroceryListR.id })
          else st1
        | none => st1
      (Result.ok l' [], st2)
    else (Result.ok l [], st.removeList listId)

/-- `ListService.get_default_list()`: reads the user's `default_list_id`
(Python truthiness: an id of `None` *or `0`* counts as unset), clears a
reference to a missing or soft-deleted list, and returns the list or
`None`. -/
def getDefaultList (uid : Nat) (st : St) : Result (Option GroceryListR) × St :=
  match st.getUser uid with
  | none => (Result.ok none [], st)
  | some u =>
    if u.defaultListId.getD 0 = 0 then (Result.ok none [], st)
    else
      match st.getList (u.defaultListId.getD 0) with
      | none =>
        (Result.ok none [], st.updateUser uid (fun v => { v with defaultListId := none }))
      | some l =>
        if l.isDeleted then
          (Result.ok none [], st.updateUser uid (fun v => { v with defaultListId := none }))
        else (Result.ok (some l) [], st)

/-! ## Entity resolution (`ai/tool_service.py`) -/

/-- `ToolService.resolve_item(item_name, list_name, include_bought)`.  A
`ValueError` raised by `HebrewText` is caught by the blanket handler, so
an invalid name degrades to a generic failure.  Python tests the optional
`list_name` with truthiness, so an empty string behaves like an absent
list name. -/
def resolveItem (uid : Nat) (itemName : String) (listName : Option String)
    (includeBought : Bool) (st : St) : Result (Nat × ItemLocation) :=
  match hebrewText itemName with
  | Except.error _ => Result.fail "שגיאה בזיהוי הפריט" ["נסה שוב", "בדוק את שם הפריט"]
  | Except.ok hname =>
    let lnOpt := match listName with
      | some s => if s = "" then none else some s
      | none => none
    let locRes := getItemLocations uid hname includeBought st
    if locRes.success = false then
      Result.fail ("לא מצאתי " ++ hname ++ " ברשימה") ["בדוק את שם הפריט"]
    else
      match locRes.data with
      | none => Result.fail "שגיאה פנימית: לא נמצאו מיקומים" ["נסה שוב"]
      | some [] => Result.fail "שגיאה פנימית: לא נמצאו מיקומים" ["נסה שוב"]
      | some (loc0 :: rest) =>
        if 1 < (loc0 :: rest).length ∧ lnOpt = none then
          Result.fail ("הפריט " ++ hname ++ " נמצא במספר רשימות")
            ["בחר רשימה: " ++
              String.intercalate ", " ((loc0 :: rest).map ItemLocation.listName)]
        else
          match lnOpt with
          | some ln =>
            match (loc0 :: rest).find? (fun loc => loc.listName == ln) with
            | some loc => Result.ok (loc.itemId, loc) []
            | none =>
              Result.fail ("לא מצאתי " ++ hname ++ " ברשימה " ++ ln)
                ["בדוק את שם הרשימה"]
          | none => Result.ok (loc0.itemId, loc0) []

/-! ## Tool execution results and dispatch (`ai/errors.py`, `ai/handlers.py`) -/

/-- `ToolExecutionResult` from `ai/errors.py`: a `Result[Dict]` that the
AI layer and its tests use with an additional `message` field.  The only
structured payload the claims inspect is the `results` list the batch
loop accumulates, so `data` is modelled as that list. -/
inductive ToolExecutionResult : Type where
  | mk (success : Bool) (message : String) (error : String)
       (suggestions : List String) (metadata : List (String × String))
       (results : List ToolExecutionResult)

/-- Success flag of a `ToolExecutionResult`. -/
def ToolExecutionResult.success : ToolExecutionResult → Bool
  | .mk s _ _ _ _ _ => s

/-- Message of a `ToolExecutionResult`. -/
def ToolExecutionResult.message : ToolExecutionResult → String
  | .mk _ m _ _ _ _ => m

/-- Error string of a `ToolExecutionResult`. -/
def ToolExecutionResult.error : ToolExecutionResult → String
  | .mk _ _ e _ _ _ => e

/-- Suggestions of a `ToolExecutionResult`. -/
def ToolExecutionResult.suggestions : ToolExecutionResult → List String
  | .mk _ _ _ s _ _ => s

/-- Accumulated batch results of a `ToolExecutionResult`. -/
def ToolExecutionResult.results : ToolExecutionResult → List ToolExecutionResult
  | .mk _ _ _ _ _ r => r

/-- `ToolExecutionResult.from_error(error)`: copies the `GPTError`'s
message, suggestions and metadata verbatim into a failure result. -/
def ToolExecutionResult.fromError (message : String) (suggestions : List String)
    (metadata : List (String × String)) : ToolExecutionResult :=
  .mk false "" message suggestions metadata []

/-- `ToolExecutionResult.from_exception(e)`: `str(e) or "שגיאה לא ידועה"`
substitutes the default message when the exception's string form is
empty. -/
def ToolExecutionResult.fromException (s : String) : ToolExecutionResult :=
  .mk false "" (if s = "" then "שגיאה לא ידועה" else s)
    ["נסה שוב", "נסה לנסח את הבקשה אחרת"] [] []

/-- The handler methods registered in `ToolExecutor.__init__`'s
`self.handlers` dict. -/
inductive HandlerTag : Type where
  | addItem | removeItem | updateQuantity | markBought
  | createList | showList | reduceQuantity
deriving Repr, DecidableEq

/-- The `self.handlers` dict of `ToolExecutor.__init__`: seven tool names
are registered. -/
def handlers (name : String) : Option HandlerTag :=
  if name = "add_item" then some HandlerTag.addItem
  else if name = "remove_item" then some HandlerTag.removeItem
  else if name = "update_quantity" then some HandlerTag.updateQuantity
  else if name = "mark_bought" then some HandlerTag.markBought
  else if name = "create_list" then some HandlerTag.createList
  else if name = "show_list" then some HandlerTag.showList
  else if name = "reduce_quantity" then some HandlerTag.reduceQuantity
  else none

/-- The dispatch step of `ToolExecutor.execute`: look the tool name up in
`self.handlers`; a registered name goes to its handler, an unregistered
name produces the `ToolExecutionError` "unsupported tool" failure. -/
def executeDispatch (name : String) : Sum HandlerTag ToolExecutionResult :=
  match handlers name with
  | some h => Sum.inl h
  | none =>
    Sum.inr (ToolExecutionResult.fromError ("כלי לא נתמך: " ++ name)
      ["השתמש בכלי מהרשימה המאושרת"] [])

/-- The ten tool names of the external interface (spec section 6). -/
def tenToolNames : List String :=
  ["add_item", "update_quantity", "increment_quantity", "reduce_quantity",
   "remove_item", "mark_bought", "create_list", "delete_list", "show_list",
   "set_default_list"]

/-- The seven keys of the `self.handlers` dict. -/
def registeredToolNames : List String :=
  ["add_item", "remove_item", "update_quantity", "mark_bought",
   "create_list", "show_list", "reduce_quantity"]

/-! ## The batch loop (`web/app.py`, `process_smart_input`) -/

/-- The tool-call loop of `process_smart_input`, lines 174-229: execute
the calls in order, accumulate the results, stop at the first failure and
return it; if every call succeeds, return a success result whose payload
is the accumulated results and whose message is the upstream message.
The second component lists the calls that were actually executed. -/
def processToolCallsAux {α : Type} (exec : α → ToolExecutionResult)
    (gptMessage : String) :
    List α → List ToolExecutionResult → ToolExecutionResult × List α
  | [], results => (ToolExecutionResult.mk true gptMessage "" [] [] results, [])
  | c :: rest, results =>
    let r := exec c
    if r.success then
      let next := processToolCallsAux exec gptMessage rest (results ++ [r])
      (next.1, c :: next.2)
    else (r, [c])

/-- `process_smart_input`'s batch execution, started with an empty result
accumulator. -/
def processSmartInput {α : Type} (exec : α → ToolExecutionResult)
    (gptMessage : String) (calls : List α) : ToolExecutionResult × List α :=
  processToolCallsAux exec gptMessage calls []

/-! ## Derived views used in theorem statements -/

/-- The owner's active (non-deleted) lists. -/
def activeOwnedLists (st : St) (uid : Nat) : List GroceryListR :=
  st.lists.filter (fun l => l.ownerId == uid && !l.isDeleted)

/-! ## Concrete fixtures -/

/-- One owner, one active list, no items. -/
def stC1 : St :=
  ⟨[⟨1, some 10⟩], [⟨10, "רשימת קניות", 1, false, none, none⟩], [], 11, 1⟩

/-- One owner, two active lists, the same unbought item name in both. -/
def stC3 : St :=
  ⟨[⟨1, some 1⟩],
   [⟨1, "א", 1, false, none, none⟩, ⟨2, "ב", 1, false, none, none⟩],
   [⟨1, "טופו", "טופו", 1, "יחידה", false, none, 1, 1, none⟩,
    ⟨2, "טופו", "טופו", 2, "יחידה", false, none, 2, 1, none⟩],
   3, 3⟩

/-- One owner, one active list holding one item of quantity 50. -/
def stC4 : St :=
  ⟨[⟨1, some 1⟩], [⟨1, "רשימה", 1, false, none, none⟩],
   [⟨1, "חלב", "חלב", 50, "יחידה", false, none, 1, 1, none⟩], 2, 2⟩

/-- One owner with no lists at all. -/
def stC5 : St := ⟨[⟨1, none⟩], [], [], 1, 1⟩

/-- One owner whose default list X has one other active list Y. -/
def stC6 : St :=
  ⟨[⟨1, some 1⟩],
   [⟨1, "א", 1, false, none, none⟩, ⟨2, "ב", 1, false, none, none⟩],
   [], 3, 1⟩

/-- A two-call batch executor for the batch-halting witness: call `0`
fails, every other call succeeds. -/
def execW : Nat → ToolExecutionResult := fun n =>
  if n = 0 then ToolExecutionResult.mk false "" "רשימה לא נמצאה" [] [] []
  else ToolExecutionResult.mk true "בוצע" "" [] [] []

/-! ## Helper lemmas -/

/-- `find?` commutes with a `map` whose function preserves the predicate. -/
theorem find?_map_of_pred {α : Type} (g : α → α) (p : α → Bool)
    (h : ∀ x, p (g x) = p x) :
    ∀ l : List α, (l.map g).find? p = (l.find? p).map g := by
  intro l
  induction l with
  | nil => rfl
  | cons a t ih =>
    by_cases hpa : p a = true
    · rw [List.map_cons, List.find?_cons_of_pos _ (by rw [h]; exact hpa),
        List.find?_cons_of_pos _ hpa, Option.map_some']
    · rw [List.map_cons, List.find?_cons_of_neg _ (by rw [h]; simpa using hpa),
        List.find?_cons_of_neg _ (by simpa using hpa), ih]

/-- A `filter` is unchanged by a `map` that fixes every element the filter
keeps and preserves the predicate. -/
theorem filter_map_of_pred {α : Type} (g : α → α) (p : α → Bool)
    (h : ∀ x, p (g x) = p x) (hfix : ∀ x, p x = true → g x = x) :
    ∀ l : List α, (l.map g).filter p = l.filter p := by
  intro l
  induction l with
  | nil => rfl
  | cons a t ih =>
    by_cases hpa : p a = true
    · rw [List.map_cons, List.filter_cons_of_pos (by rw [h]; exact hpa),
        List.filter_cons_of_pos hpa, hfix a hpa, ih]
    · rw [List.map_cons, List.filter_cons_of_neg (by rw [h]; simpa using hpa),
        List.filter_cons_of_neg (by simpa using hpa), ih]

/-- With pairwise-distinct keys, `find?` on a key returns the member that
carries it. -/
theorem find?_eq_of_key {α : Type} (key : α → Nat) :
    ∀ (l : List α) (y : α) (d : Nat), y ∈ l → key y = d →
      (l.map key).Nodup → l.find? (fun x => key x == d) = some y := by
  intro l
  induction l with
  | nil => intro y d hy; cases hy
  | cons a t ih =>
    intro y d hy hkey hnd
    rw [List.map_cons, List.nodup_cons] at hnd
    rcases List.mem_cons.mp hy with rfl | hyt
    · exact List.find?_cons_of_pos _ (by simpa using hkey)
    · have hka : key a ≠ d := by
        intro hda
        exact hnd.1 (hda ▸ hkey ▸ List.mem_map_of_mem key hyt)
      rw [List.find?_cons_of_neg _ (by simpa using hka)]
      exact ih y d hyt hkey hnd.2

/-- A nonempty `stripList` output contains a non-space character. -/
theorem stripList_has_nonspace (l : List Char) (h : stripList l ≠ []) :
    ∃ c ∈ stripList l, pyIsSpace c = false := by
  unfold stripList at *
  set m := (l.dropWhile pyIsSpace).reverse.dropWhile pyIsSpace with hm
  have hmne : m ≠ [] := by
    intro hnil
    exact h (by rw [← hm] at *; rw [hnil]; rfl)
  have hlen : 0 < m.length := List.length_pos.mpr hmne
  have hhead := List.dropWhile_get_zero_not pyIsSpace
    ((l.dropWhile pyIsSpace).reverse) (by rw [← hm]; exact hlen)
  refine ⟨m.get ⟨0, hlen⟩, ?_, ?_⟩
  · exact List.mem_reverse.mpr (List.get_mem m 0 hlen)
  · simpa using hhead

/-- If some element of `l` fails `p`, the filtered length is strictly
below the full length. -/
theorem filter_length_lt {α : Type} (p : α → Bool) (l : List α)
    (h : ∃ c ∈ l, p c = false) : (l.filter p).length < l.length := by
  rcases h with ⟨c, hc, hpc⟩
  rcases List.append_of_mem hc with ⟨s, t, rfl⟩
  rw [List.filter_append, List.length_append, List.filter_cons_of_neg (by simp [hpc]),
    List.length_append, List.length_cons]
  have h1 := List.length_filter_le p s
  have h2 := List.length_filter_le p t
  omega

/-! ## Claim theorems -/

/-- Reading back the row just rewritten by `St.updateItem`. -/
theorem getItem_updateItem (st : St) (iid : Nat) (f : GroceryItemR → GroceryItemR)
    (item : GroceryItemR) (hi : st.getItem iid = some item)
    (hid : ∀ x, (x.id == iid) = true → ((f x).id == iid) = true) :
    (st.updateItem iid f).getItem iid = some (f item) := by
  have hi' : st.items.find? (fun x => x.id == iid) = some item := hi
  have hpid : (item.id == iid) = true :=
    @List.find?_some GroceryItemR (fun x => x.id == iid) item st.items hi'
  show (st.items.map (fun x => if x.id == iid then f x else x)).find?
      (fun x => x.id == iid) = some (f item)
  rw [find?_map_of_pred _ _ ?_ st.items]
  · show (st.getItem iid).map _ = _
    rw [hi]
    show some (if (item.id == iid) = true then f item else item) = some (f item)
    rw [if_pos hpid]
  · intro x
    by_cases hx : (x.id == iid) = true
    · simp only [if_pos hx]
      rw [hid x hx, hx]
    · simp only [if_neg hx]

/-- Evaluation of `mark_bought(item_id, True)` when the item exists in an
active list of the caller. -/
theorem markBought_eval_true (uid iid now : Nat) (st : St)
    (item : GroceryItemR) (l : GroceryListR)
    (hi : st.getItem iid = some item) (hl : st.getList item.listId = some l)
    (how : l.ownerId = uid) (hact : l.isDeleted = false) :
    markBought uid iid true now st =
      (Result.ok
        { item with isBought := true, boughtAt := some now, updatedBy := some uid } [],
       st.updateItem iid (fun _ =>
        { item with isBought := true, boughtAt := some now, updatedBy := some uid })) := by
  simp [markBought, hi, hl, how, hact]

/-- Overwriting by `a` and then by `b` at the same key is overwriting by
`b`, provided `a` still matches the key. -/
theorem map_map_const_collapse {α : Type} (p : α → Bool) (a b : α)
    (hp : p a = true) (l : List α) :
    (l.map (fun x => if p x then a else x)).map (fun x => if p x then b else x) =
      l.map (fun x => if p x then b else x) := by
  rw [List.map_map]
  have hfg : ((fun x => if p x then b else x) ∘ (fun x => if p x then a else x)) =
      (fun x => if p x then b else x) := by
    funext x
    by_cases hx : p x = true
    · simp [hx, hp]
    · simp [hx]
  rw [hfg]

/-- Two consecutive constant rewrites of the same row collapse to the
second one. -/
theorem updateItem_twice_const (st : St) (iid : Nat) (a b : GroceryItemR)
    (ha : (a.id == iid) = true) :
    (st.updateItem iid (fun _ => a)).updateItem iid (fun _ => b) =
      st.updateItem iid (fun _ => b) :=
  congrArg (fun its => { st with items := its })
    (map_map_const_collapse (fun x => x.id == iid) a b ha st.items)

/-- C9: `mark_bought(item, true)` is idempotent for an owned item in an
active list: both calls succeed, the state after the two calls is the
state a single call (at the second call's clock reading) produces, and
the item ends with `is_bought = true` and a single `bought_at` stamp.  In
particular, at an unchanged clock reading the second call is a no-op. -/
theorem markBought_true_idempotent
    (st : St) (uid iid t1 t2 : Nat) (item : GroceryItemR) (l : GroceryListR)
    (hi : st.getItem iid = some item)
    (hl : st.getList item.listId = some l)
    (how : l.ownerId = uid) (hact : l.isDeleted = false) :
    (markBought uid iid true t1 st).1.success = true ∧
    (markBought uid iid true t2 (markBought uid iid true t1 st).2).1.success = true ∧
    (markBought uid iid true t2 (markBought uid iid true t1 st).2).2 =
      (markBought uid iid true t2 st).2 ∧
    (markBought uid iid true t2 (markBought uid iid true t1 st).2).2.getItem iid =
      some { item with isBought := true, boughtAt := some t2, updatedBy := some uid } := by
  have hpid : (item.id == iid) = true :=
    @List.find?_some GroceryItemR (fun x => x.id == iid) item st.items hi
  set i1 : GroceryItemR :=
    { item with isBought := true, boughtAt := some t1, updatedBy := some uid } with hi1d
  set i2 : GroceryItemR :=
    { item with isBought := true, boughtAt := some t2, updatedBy := some uid } with hi2d
  have e1 := markBought_eval_true uid iid t1 st item l hi hl how hact
  have hst1 : (markBought uid iid true t1 st).2 = st.updateItem iid (fun _ => i1) := by
    rw [e1]
  have hist1 : (st.updateItem iid (fun _ => i1)).getItem iid = some i1 :=
    getItem_updateItem st iid (fun _ => i1) item hi (fun _ _ => hpid)
  have hl1 : (st.updateItem iid (fun _ => i1)).getList i1.listId = some l := hl
  have e2 := markBought_eval_true uid iid t2 (st.updateItem iid (fun _ => i1)) i1 l
    hist1 hl1 how hact
  have hrec : ({ i1 with isBought := true, boughtAt := some t2, updatedBy := some uid }
      : GroceryItemR) = i2 := rfl
  rw [hrec] at e2
  have e3 := markBought_eval_true uid iid t2 st item l hi hl how hact
  have hcollapse := updateItem_twice_const st iid i1 i2 hpid
  refine ⟨by rw [e1]; rfl, by rw [hst1, e2]; rfl, ?_, ?_⟩
  · rw [hst1, e2, e3]
    exact hcollapse
  · rw [hst1, e2]
    show ((st.updateItem iid (fun _ => i1)).updateItem iid (fun _ => i2)).getItem iid = _
    rw [hcollapse]
    exact getItem_updateItem st iid (fun _ => i2) item hi (fun _ _ => hpid)

/-- C9 witness: a concrete double `mark_bought` on an item of an active
owned list, at one fixed clock reading, is a strict no-op success. -/
theorem markBought_true_idempotent_w :
    (markBought 1 1 true 5 stC4).1.success = true ∧
    (markBought 1 1 true 5 (markBought 1 1 true 5 stC4).2).1.success = true ∧
    (markBought 1 1 true 5 (markBought 1 1 true 5 stC4).2).2 =
      (markBought 1 1 true 5 stC4).2 ∧
    (markBought 1 1 true 5 (markBought 1 1 true 5 stC4).2).2.getItem 1 =
      some ⟨1, "חלב", "חלב", 50, "יחידה", true, some 5, 1, 1, some 1⟩ :=
  markBought_true_idempotent stC4 1 1 5 5
    ⟨1, "חלב", "חלב", 50, "יחידה", false, none, 1, 1, none⟩
    ⟨1, "רשימה", 1, false, none, none⟩ rfl rfl rfl rfl

/-- Reading back the row just rewritten by `St.updateUser`. -/
theorem getUser_updateUser (st : St) (uid : Nat) (f : UserR → UserR)
    (u : UserR) (hu : st.getUser uid = some u)
    (hid : ∀ x, (x.id == uid) = true → ((f x).id == uid) = true) :
    (st.updateUser uid f).getUser uid = some (f u) := by
  have hu' : st.users.find? (fun x => x.id == uid) = some u := hu
  have hpid : (u.id == uid) = true :=
    @List.find?_some UserR (fun x => x.id == uid) u st.users hu'
  show (st.users.map (fun x => if x.id == uid then f x else x)).find?
      (fun x => x.id == uid) = some (f u)
  rw [find?_map_of_pred _ _ ?_ st.users]
  · show (st.getUser uid).map _ = _
    rw [hu]
    show some (if (u.id == uid) = true then f u else u) = some (f u)
    rw [if_pos hpid]
  · intro x
    by_cases hx : (x.id == uid) = true
    · simp only [if_pos hx]
      rw [hid x hx, hx]
    · simp only [if_neg hx]

/-- A name accepted by `HebrewText` has non-empty strip. -/
theorem hebrewText_ok_strip_ne (name hname : String)
    (hh : hebrewText name = Except.ok hname) : ¬(stripList name.data = []) := by
  intro h
  rw [hebrewText, if_pos h] at hh
  cases hh

/-- C4 counterexample: an owned item with quantity 50 in an active list,
reduced with step `-60`: the new quantity `50 - (-60) = 110 ≥ 1`, yet the
call fails (the new quantity breaks the 99 bound), refuting "with
current − step ≥ 1 it returns success". -/
theorem reduceQuantity_negative_step_cex :
    stC4.getItem 1 = some ⟨1, "חלב", "חלב", 50, "יחידה", false, none, 1, 1, none⟩ ∧
    stC4.getList 1 = some ⟨1, "רשימה", 1, false, none, none⟩ ∧
    (1 : Int) ≤ 50 - (-60) ∧
    (reduceQuantity 1 1 (-60) stC4).1.success = false :=
  ⟨rfl, rfl, by decide, rfl⟩

/-- C4 (amended): for an owned item in an active list,
`reduce_quantity(item, step)` with `current − step ≤ 0` deletes the item
row and returns a success result carrying the informational removal
message; with `1 ≤ current − step ≤ 99` it returns success and stores
`current − step`.  (A negative step can push `current − step` above 99,
and that case fails quantity validation — see the counterexample.) -/
theorem reduceQuantity_spec
    (st : St) (uid iid : Nat) (step : Int) (item : GroceryItemR) (l : GroceryListR)
    (hi : st.getItem iid = some item)
    (hl : st.getList item.listId = some l)
    (how : l.ownerId = uid) (hact : l.isDeleted = false)
    (hu1 : 1 ≤ item.unit.length) (hu2 : item.unit.length ≤ 20) :
    (item.quantity - step ≤ 0 →
      reduceQuantity uid iid step st =
        (Result.ok item [("message", "הפריט הוסר מהרשימה כי הכמות ירדה ל-0")],
         st.removeItem iid)) ∧
    (1 ≤ item.quantity - step → item.quantity - step ≤ 99 →
      (reduceQuantity uid iid step st).1 =
        Result.ok { item with quantity := item.quantity - step, updatedBy := some uid } [] ∧
      (reduceQuantity uid iid step st).2.getItem iid =
        some { item with quantity := item.quantity - step, updatedBy := some uid }) := by
  have hpid : (item.id == iid) = true :=
    @List.find?_some GroceryItemR (fun x => x.id == iid) item st.items hi
  constructor
  · intro hle
    simp [reduceQuantity, hi, hl, how, hact, hle]
  · intro h1 h2
    have hq : Quantity.make (item.quantity - step) item.unit =
        Except.ok ⟨item.quantity - step, item.unit⟩ := by
      unfold Quantity.make
      rw [if_neg (by omega), if_neg (by omega), if_neg (by omega),
        if_neg (by omega), if_neg (by omega)]
    have hpos : ¬(item.quantity - step ≤ 0) := by omega
    have e : reduceQuantity uid iid step st =
        (Result.ok { item with quantity := item.quantity - step, updatedBy := some uid } [],
         st.updateItem iid (fun _ =>
           { item with quantity := item.quantity - step, updatedBy := some uid })) := by
      simp [reduceQuantity, hi, hl, how, hact, hpos, hq]
    refine ⟨by rw [e], ?_⟩
    rw [e]
    show (st.updateItem iid _).getItem iid = _
    exact getItem_updateItem st iid
      (fun _ => { item with quantity := item.quantity - step, updatedBy := some uid })
      item hi (fun _ _ => hpid)

/-- C4 witness: reducing the quantity-50 item by 2 succeeds and stores 48. -/
theorem reduceQuantity_spec_w :
    (reduceQuantity 1 1 2 stC4).1 =
      Result.ok ⟨1, "חלב", "חלב", 48, "יחידה", false, none, 1, 1, some 1⟩ [] ∧
    (reduceQuantity 1 1 2 stC4).2.getItem 1 =
      some ⟨1, "חלב", "חלב", 48, "יחידה", false, none, 1, 1, some 1⟩ :=
  (reduceQuantity_spec stC4 1 1 2
      ⟨1, "חלב", "חלב", 50, "יחידה", false, none, 1, 1, none⟩
      ⟨1, "רשימה", 1, false, none, none⟩
      rfl rfl rfl rfl (by decide) (by decide)).2 (by decide) (by decide)

/-- C3 counterexample: "טופו" is unbought in the two active lists "א" and
"ב"; `resolve_item` without a list name fails as claimed, but its
suggestions are the single prompt string "בחר רשימה: א, ב" — not an
enumeration of the two candidate list names. -/
theorem resolveItem_suggestions_cex :
    (resolveItem 1 "טופו" none false stC3).success = false ∧
    (resolveItem 1 "טופו" none false stC3).suggestions = ["בחר רשימה: א, ב"] ∧
    (resolveItem 1 "טופו" none false stC3).suggestions.length = 1 ∧
    (resolveItem 1 "טופו" none false stC3).suggestions ≠ ["א", "ב"] := by
  refine ⟨rfl, rfl, rfl, by decide⟩

/-- C3 (amended): with an item name matching two or more unbought
candidates across the owner's active lists, `resolve_item` with no list
name fails with a single suggestion string that lists all candidate list
names; with a (non-empty) list name naming one of the candidates it
succeeds with the matching item of that list; and with a list name
matching none of the candidates it fails with a not-found error. -/
theorem resolveItem_multi_spec
    (st : St) (uid : Nat) (itemName hname : String)
    (loc0 loc1 : ItemLocation) (rest : List ItemLocation)
    (hh : hebrewText itemName = Except.ok hname)
    (hlocs : getItemLocations uid hname false st =
      Result.ok (loc0 :: loc1 :: rest) []) :
    (resolveItem uid itemName none false st =
      Result.fail ("הפריט " ++ hname ++ " נמצא במספר רשימות")
        ["בחר רשימה: " ++ String.intercalate ", "
          ((loc0 :: loc1 :: rest).map ItemLocation.listName)]) ∧
    (∀ ln : String, ln ≠ "" →
      ln ∈ (loc0 :: loc1 :: rest).map ItemLocation.listName →
      ∃ loc, resolveItem uid itemName (some ln) false st =
          Result.ok (loc.itemId, loc) [] ∧
        loc.listName = ln ∧ loc ∈ loc0 :: loc1 :: rest) ∧
    (∀ ln : String, ln ≠ "" →
      (loc0 :: loc1 :: rest).find? (fun loc => loc.listName == ln) = none →
      resolveItem uid itemName (some ln) false st =
        Result.fail ("לא מצאתי " ++ hname ++ " ברשימה " ++ ln)
          ["בדוק את שם הרשימה"]) := by
  refine ⟨?_, ?_, ?_⟩
  · simp [resolveItem, hh, hlocs, Result.fail, Result.ok]
  · intro ln hln hmem
    obtain ⟨loc, hlocmem, hname⟩ := List.mem_map.mp hmem
    have hsome : ((loc0 :: loc1 :: rest).find?
        (fun loc => loc.listName == ln)).isSome := by
      rw [List.find?_isSome]
      exact ⟨loc, hlocmem, by simp [hname]⟩
    obtain ⟨loc', hfind⟩ := Option.isSome_iff_exists.mp hsome
    refine ⟨loc', ?_, ?_, List.mem_of_find?_eq_some hfind⟩
    · simp [resolveItem, hh, hlocs, hln, hfind, Result.ok, Result.fail]
    · have := @List.find?_some ItemLocation (fun loc => loc.listName == ln) loc'
        (loc0 :: loc1 :: rest) hfind
      simpa using this
  · intro ln hln hnone
    simp [resolveItem, hh, hlocs, hln, hnone, Result.fail, Result.ok]

/-- C3 witness: the amended theorem applied to the two-list fixture gives
the single joined-suggestion ambiguity failure. -/
theorem resolveItem_multi_spec_w :
    resolveItem 1 "טופו" none false stC3 =
      Result.fail ("הפריט " ++ "טופו" ++ " נמצא במספר רשימות")
        ["בחר רשימה: " ++ String.intercalate ", "
          (([⟨1, "א", 1, 1, "יחידה", false⟩,
             ⟨2, "ב", 2, 2, "יחידה", false⟩] : List ItemLocation).map
            ItemLocation.listName)] :=
  (resolveItem_multi_spec stC3 1 "טופו" "טופו"
    ⟨1, "א", 1, 1, "יחידה", false⟩ ⟨2, "ב", 2, 2, "יחידה", false⟩ []
    rfl rfl).1

/-- C1: evaluation of the code at the failing input.  `Quantity(value=0)`
is accepted (the `ge=0` field bound and the `v < 0` validator both pass),
and `add_item` with quantity 0 therefore succeeds and inserts an item row
whose stored quantity is 0 — contrary to the claim, to invariant 2 of the
spec, and to the repository's own test `test_add_item_invalid_quantity`,
which require quantity 0 to be rejected as "must be positive". -/
theorem quantity_zero_is_accepted :
    Quantity.make 0 "יחידה" = Except.ok ⟨0, "יחידה"⟩ ∧
    (addItem 1 10 "חלב" 0 "יחידה" stC1).1.success = true ∧
    (addItem 1 10 "חלב" 0 "יחידה" stC1).2.items.map GroceryItemR.quantity = [0] :=
  ⟨rfl, rfl, rfl⟩

/-- C10: every failure built by `Result.fail` or by
`ToolExecutionResult.from_exception` carries a non-empty error string —
both substitute the default "שגיאה לא ידועה" when handed an empty
message. -/
theorem failure_results_carry_nonempty_error :
    ∀ (α : Type) (e : String) (sug : List String) (ex : String),
      ((Result.fail e sug : Result α).success = false ∧
        (Result.fail e sug : Result α).error ≠ "") ∧
      ((ToolExecutionResult.fromException ex).success = false ∧
        (ToolExecutionResult.fromException ex).error ≠ "") := by
  intro α e sug ex
  refine ⟨⟨rfl, ?_⟩, rfl, ?_⟩
  · show (if e = "" then "שגיאה לא ידועה" else e) ≠ ""
    by_cases h : e = ""
    · rw [if_pos h]; decide
    · rw [if_neg h]; exact h
  · show (if ex = "" then "שגיאה לא ידועה" else ex) ≠ ""
    by_cases h : ex = ""
    · rw [if_pos h]; decide
    · rw [if_neg h]; exact h

/-- C2 counterexample: `increment_quantity` is one of the ten tool names
of the interface, yet it has no entry in the executor's `handlers` dict,
so `execute` treats it as an unsupported tool. -/
theorem dispatch_table_missing_increment :
    "increment_quantity" ∈ tenToolNames ∧
    handlers "increment_quantity" = none ∧
    executeDispatch "increment_quantity" =
      Sum.inr (ToolExecutionResult.fromError ("כלי לא נתמך: " ++ "increment_quantity")
        ["השתמש בכלי מהרשימה המאושרת"] []) :=
  ⟨by decide, by decide, rfl⟩

/-- C2 (amended): the dispatch table registers exactly the seven tool
names `add_item`, `remove_item`, `update_quantity`, `mark_bought`,
`create_list`, `show_list`, `reduce_quantity`, each mapped to its
handler; every other name — including `increment_quantity`, `delete_list`
and `set_default_list` — makes `execute` return the failure carrying the
`ToolExecutionError` "unsupported tool" message. -/
theorem dispatch_table_spec (name : String) :
    ((handlers name).isSome ↔ name ∈ registeredToolNames) ∧
    (name ∉ registeredToolNames →
      executeDispatch name =
        Sum.inr (ToolExecutionResult.fromError ("כלי לא נתמך: " ++ name)
          ["השתמש בכלי מהרשימה המאושרת"] [])) ∧
    handlers "add_item" = some HandlerTag.addItem ∧
    handlers "remove_item" = some HandlerTag.removeItem ∧
    handlers "update_quantity" = some HandlerTag.updateQuantity ∧
    handlers "mark_bought" = some HandlerTag.markBought ∧
    handlers "create_list" = some HandlerTag.createList ∧
    handlers "show_list" = some HandlerTag.showList ∧
    handlers "reduce_quantity" = some HandlerTag.reduceQuantity := by
  refine ⟨?_, ?_, by decide, by decide, by decide, by decide, by decide, by decide, by decide⟩
  · unfold handlers registeredToolNames
    split_ifs with h1 h2 h3 h4 h5 h6 h7 <;> simp_all
  · intro hmem
    unfold executeDispatch handlers
    unfold registeredToolNames at hmem
    simp only [List.mem_cons, List.not_mem_nil, or_false] at hmem
    push_neg at hmem
    obtain ⟨n1, n2, n3, n4, n5, n6, n7⟩ := hmem
    rw [if_neg n1, if_neg n2, if_neg n3, if_neg n4, if_neg n5, if_neg n6, if_neg n7]

/-- C2 witness: the theorem applied to the unregistered name
`delete_list`. -/
theorem dispatch_table_spec_w :
    executeDispatch "delete_list" =
      Sum.inr (ToolExecutionResult.fromError ("כלי לא נתמך: " ++ "delete_list")
        ["השתמש בכלי מהרשימה המאושרת"] []) :=
  (dispatch_table_spec "delete_list").2.1 (by decide)

/-- The batch loop with an arbitrary result accumulator: a failing call
after an all-success prefix ends the batch with that failure, and nothing
after it runs. -/
theorem processToolCallsAux_halts {α : Type} (exec : α → ToolExecutionResult)
    (msg : String) (c : α) (post : List α) (hc : (exec c).success = false) :
    ∀ (pre : List α), (∀ x ∈ pre, (exec x).success = true) →
      ∀ results, processToolCallsAux exec msg (pre ++ c :: post) results =
        (exec c, pre ++ [c]) := by
  intro pre
  induction pre with
  | nil =>
    intro _ results
    show processToolCallsAux exec msg (c :: post) results = (exec c, [c])
    unfold processToolCallsAux
    rw [if_neg (by simp [hc])]
  | cons a t ih =>
    intro hpre results
    show processToolCallsAux exec msg (a :: (t ++ c :: post)) results = _
    unfold processToolCallsAux
    rw [if_pos (hpre a (List.mem_cons_self a t)),
      ih (fun x hx => hpre x (List.mem_cons_of_mem a hx)) (results ++ [exec a])]
    rfl

/-- C7: `process_smart_input` executes the batch strictly in order and,
at the first call whose result is a failure, returns that failure as the
batch result; the calls after it are never executed (the executed-call
trace is exactly the successful prefix plus the failing call). -/
theorem batch_stops_at_first_failure {α : Type} (exec : α → ToolExecutionResult)
    (msg : String) (pre : List α) (c : α) (post : List α)
    (hpre : ∀ x ∈ pre, (exec x).success = true)
    (hc : (exec c).success = false) :
    processSmartInput exec msg (pre ++ c :: post) = (exec c, pre ++ [c]) :=
  processToolCallsAux_halts exec msg c post hc pre hpre []

/-- C7 witness: a two-call batch whose first call fails returns that
failure and never executes the second call. -/
theorem batch_stops_at_first_failure_w :
    processSmartInput execW "בוצע" [0, 1] = (execW 0, [0]) :=
  batch_stops_at_first_failure execW "בוצע" [] 0 [1]
    (fun x hx => absurd hx (List.not_mem_nil x)) rfl

/-- C8: `HebrewText(raw)` succeeds exactly when the trimmed text is
non-empty and at least 70% of its non-space characters lie in the Hebrew
block (the float test `hebrew / length < 0.7` taken as the exact rational
comparison), in which case the value returned is the trimmed text; for
empty/whitespace-only input or a ratio below 0.7 it raises the
validation error. -/
theorem hebrewText_spec (raw : String) :
    ((∃ t, hebrewText raw = Except.ok t) ↔
      (pyStrip raw ≠ "" ∧
        7 * ((stripList raw.data).length - spaceCount (stripList raw.data)) ≤
          10 * hebrewCount (stripList raw.data))) ∧
    (∀ t, hebrewText raw = Except.ok t → t = pyStrip raw) ∧
    ((pyStrip raw = "" ∨
        10 * hebrewCount (stripList raw.data) <
          7 * ((stripList raw.data).length - spaceCount (stripList raw.data))) →
      ∃ e, hebrewText raw = Except.error e) := by
  have hmk : ∀ L : List Char, String.mk L = "" → L = [] :=
    fun L h => congrArg String.data h
  by_cases h0 : stripList raw.data = []
  · have hps : pyStrip raw = "" := by rw [pyStrip, h0]
    have hres : hebrewText raw = Except.error "טקסט לא יכול להיות ריק" := by
      rw [hebrewText, if_pos h0]
    refine ⟨?_, ?_, ?_⟩
    · simp [hres, hps]
    · intro t ht; rw [hres] at ht; cases ht
    · intro _; exact ⟨_, hres⟩
  · have hps : pyStrip raw ≠ "" := fun h => h0 (hmk _ h)
    have hsp : spaceCount (stripList raw.data) < (stripList raw.data).length :=
      filter_length_lt pyIsSpace _ (stripList_has_nonspace raw.data h0)
    have hn0 : ¬((stripList raw.data).length - spaceCount (stripList raw.data) = 0) := by
      omega
    by_cases hzero : hebrewCount (stripList raw.data) = 0 ∨
        10 * hebrewCount (stripList raw.data) <
          7 * ((stripList raw.data).length - spaceCount (stripList raw.data))
    · have hres : hebrewText raw = Except.error "טקסט חייב להיות בעיקר בעברית" := by
        rw [hebrewText, if_neg h0]
        show (if _ = 0 then _ else if _ ∨ _ then _ else _) = _
        rw [if_neg hn0, if_pos hzero]
      have hbad : 10 * hebrewCount (stripList raw.data) <
          7 * ((stripList raw.data).length - spaceCount (stripList raw.data)) := by
        rcases hzero with hz | hlt
        · rw [hz]; omega
        · exact hlt
      refine ⟨?_, ?_, ?_⟩
      · simp only [hres]
        constructor
        · intro ⟨t, ht⟩; cases ht
        · intro ⟨_, hge⟩; omega
      · intro t ht; rw [hres] at ht; cases ht
      · intro _; exact ⟨_, hres⟩
    · have hres : hebrewText raw = Except.ok (String.mk (stripList raw.data)) := by
        rw [hebrewText, if_neg h0]
        show (if _ = 0 then _ else if _ ∨ _ then _ else _) = _
        rw [if_neg hn0, if_neg hzero]
      push_neg at hzero
      refine ⟨?_, ?_, ?_⟩
      · simp only [hres]
        exact ⟨fun _ => ⟨hps, hzero.2⟩, fun _ => ⟨_, rfl⟩⟩
      · intro t ht
        rw [hres] at ht
        injection ht with h
        rw [← h]; rfl
      · intro hbad
        rcases hbad with hb | hb
        · exact absurd hb hps
        · omega

/-- C8 witness: a padded, fully Hebrew input is accepted and trimmed. -/
theorem hebrewText_spec_w : hebrewText " חלב " = Except.ok "חלב" := by
  obtain ⟨h1, h2, _⟩ := hebrewText_spec " חלב "
  obtain ⟨t, ht⟩ := h1.mpr (by decide)
  rw [ht, h2 t ht]
  rfl

/-- C5: `create_list(name)` fails with the duplicate-name error when an
active list of the owner carries the name; fails with the distinct
"previously deleted — restore or rename" error when (no active but) a
soft-deleted list carries it; and on success auto-promotes the new list
to the owner's default exactly when the owner had no prior active list.
(`hfresh` and `hdef` are the store invariants: primary keys are fresh and
the default pointer references an existing row.) -/
theorem createList_spec
    (st : St) (uid : Nat) (name hname : String) (u : UserR)
    (hh : hebrewText name = Except.ok hname)
    (hu : st.getUser uid = some u)
    (hfresh : ∀ x ∈ st.lists, x.id ≠ st.nextListId)
    (hdef : ∀ d, u.defaultListId = some d → ∃ x ∈ st.lists, x.id = d) :
    (activeSameName st uid hname ≠ [] →
      createList uid name st =
        (Result.fail ("השם \x27" ++ hname ++ "\x27 כבר קיים")
          ["נסה שם אחר", "הוסף מספר או תיאור ל\x27" ++ hname ++ "\x27"], st)) ∧
    (activeSameName st uid hname = [] → deletedSameName st uid hname ≠ [] →
      createList uid name st =
        (Result.fail ("רשימה בשם \x27" ++ hname ++ "\x27 נמחקה בעבר")
          ["שחזר את הרשימה המחוקה", "בחר שם אחר לרשימה החדשה"], st)) ∧
    (activeSameName st uid hname = [] → deletedSameName st uid hname = [] →
      (createList uid name st).1 =
        Result.ok ⟨st.nextListId, hname, uid, false, none, none⟩ [] ∧
      ∃ u', (createList uid name st).2.getUser uid = some u' ∧
        (u'.defaultListId = some st.nextListId ↔ activeOwnedLists st uid = [])) := by
  have hstrip := hebrewText_ok_strip_ne name hname hh
  have hothers : activeOtherLists
      (st.lists ++ [(⟨st.nextListId, hname, uid, false, none, none⟩ : GroceryListR)])
      uid st.nextListId = activeOwnedLists st uid := by
    unfold activeOtherLists activeOwnedLists
    rw [List.filter_append]
    have h2 : List.filter
        (fun l => l.ownerId == uid && !l.isDeleted && !(l.id == st.nextListId))
        [(⟨st.nextListId, hname, uid, false, none, none⟩ : GroceryListR)] = [] := by
      simp
    rw [h2, List.append_nil]
    apply List.filter_congr
    intro x hx
    have hxid : (x.id == st.nextListId) = false := by
      simpa using hfresh x hx
    simp [hxid]
  refine ⟨?_, ?_, ?_⟩
  · intro hdup
    simp [createList, hstrip, hh, hdup, Result.fail]
  · intro hnodup hdel
    simp [createList, hstrip, hh, hnodup, hdel, Result.fail]
  · intro hnodup hnodel
    by_cases hpr : activeOwnedLists st uid = []
    · have e : createList uid name st =
          (Result.ok (⟨st.nextListId, hname, uid, false, none, none⟩ : GroceryListR) [],
           ({ st with
              lists := st.lists ++ [⟨st.nextListId, hname, uid, false, none, none⟩],
              nextListId := st.nextListId + 1 } : St).updateUser uid
             (fun v => { v with defaultListId := some st.nextListId })) := by
        simp [createList, hstrip, hh, hnodup, hnodel, hothers, hpr, Result.ok]
      refine ⟨by rw [e], ?_⟩
      refine ⟨{ u with defaultListId := some st.nextListId }, ?_, by simp [hpr]⟩
      rw [e]
      exact getUser_updateUser _ uid _ u hu (fun x hx => hx)
    · have e : createList uid name st =
          (Result.ok (⟨st.nextListId, hname, uid, false, none, none⟩ : GroceryListR) [],
           ({ st with
              lists := st.lists ++ [⟨st.nextListId, hname, uid, false, none, none⟩],
              nextListId := st.nextListId + 1 } : St)) := by
        simp [createList, hstrip, hh, hnodup, hnodel, hothers, hpr, Result.ok]
      refine ⟨by rw [e], ?_⟩
      refine ⟨u, ?_, ?_⟩
      · rw [e]
        exact hu
      · constructor
        · intro hud
          obtain ⟨x, hx, hxid⟩ := hdef _ hud
          exact absurd hxid (hfresh x hx)
        · intro h
          exact absurd h hpr

/-- C5 witness: the first list created for a fresh owner succeeds and is
auto-promoted to the owner's default list. -/
theorem createList_spec_w :
    (createList 1 "רשימת קניות" stC5).1 =
      Result.ok ⟨1, "רשימת קניות", 1, false, none, none⟩ [] ∧
    ∃ u', (createList 1 "רשימת קניות" stC5).2.getUser 1 = some u' ∧
      (u'.defaultListId = some 1 ↔ activeOwnedLists stC5 1 = []) :=
  (createList_spec stC5 1 "רשימת קניות" "רשימת קניות" ⟨1, none⟩
    rfl rfl (by simp [stC5]) (by simp) ).2.2 rfl rfl

/-- Rewriting a user row leaves list lookups unchanged. -/
theorem getList_updateUser (st : St) (uid : Nat) (f : UserR → UserR) (d : Nat) :
    (st.updateUser uid f).getList d = st.getList d := rfl

/-- C6: soft-deleting the list that is the owner's default repoints
`default_list_id` to the first remaining active list of the owner, or to
null when none remains; the repointed default is never soft-deleted and
never the deleted list, and `get_default_list` afterwards returns exactly
that list — the sole remaining active list when there is exactly one,
null when none remains.  (`hnd` and `h0` are store invariants: distinct,
non-zero primary keys.) -/
theorem deleteList_default_repoint
    (st : St) (uid lid now : Nat) (l : GroceryListR) (u : UserR)
    (hl : st.getList lid = some l) (how : l.ownerId = uid)
    (hu : st.getUser uid = some u) (hd : u.defaultListId = some lid)
    (hnd : (st.lists.map GroceryListR.id).Nodup)
    (h0 : ∀ x ∈ st.lists, x.id ≠ 0) :
    (deleteList uid lid true now st).1.success = true ∧
    (∃ u', (deleteList uid lid true now st).2.getUser uid = some u' ∧
      u'.defaultListId =
        ((activeOtherLists st.lists uid lid).head?).map GroceryListR.id) ∧
    (∀ d, ((activeOtherLists st.lists uid lid).head?).map GroceryListR.id = some d →
      ∃ l2, (deleteList uid lid true now st).2.getList d = some l2 ∧
        l2.isDeleted = false ∧ l2.ownerId = uid ∧ d ≠ lid) ∧
    (getDefaultList uid (deleteList uid lid true now st).2).1 =
      Result.ok ((activeOtherLists st.lists uid lid).head?) [] ∧
    (activeOtherLists st.lists uid lid = [] →
      (getDefaultList uid (deleteList uid lid true now st).2).1 = Result.ok none []) ∧
    (∀ Y, activeOtherLists st.lists uid lid = [Y] →
      (getDefaultList uid (deleteList uid lid true now st).2).1 =
        Result.ok (some Y) []) := by
  subst how
  have hl' : st.lists.find? (fun x => x.id == lid) = some l := hl
  have hlid : (l.id == lid) = true :=
    @List.find?_some GroceryListR (fun x => x.id == lid) l st.lists hl'
  have hlid' : l.id = lid := by simpa using hlid
  have hfilter : activeOtherLists
      ((st.updateList lid (fun _ =>
        { l with isDeleted := true, deletedAt := some now, deletedBy := some l.ownerId })).lists)
      l.ownerId lid = activeOtherLists st.lists l.ownerId lid := by
    show activeOtherLists (st.lists.map (fun x => if x.id == lid then
      { l with isDeleted := true, deletedAt := some now, deletedBy := some l.ownerId } else x))
      l.ownerId lid = _
    unfold activeOtherLists
    apply filter_map_of_pred
    · intro x
      by_cases hx : (x.id == lid) = true
      · simp [hx, hlid']
      · simp [hx]
    · intro x hpx
      have hxl : (x.id == lid) = false := by
        have h12 := (Bool.and_eq_true_iff.mp hpx).2
        simpa using h12
      simp [hxl]
  have hu1 : (st.updateList lid (fun _ =>
      { l with isDeleted := true, deletedAt := some now, deletedBy := some l.ownerId })).getUser l.ownerId = some u := hu
  have e : deleteList l.ownerId lid true now st =
      (Result.ok
        { l with isDeleted := true, deletedAt := some now, deletedBy := some l.ownerId } [],
       (st.updateList lid (fun _ =>
          { l with isDeleted := true, deletedAt := some now, deletedBy := some l.ownerId })).updateUser
         l.ownerId (fun v => { v with defaultListId :=
            ((activeOtherLists st.lists l.ownerId lid).head?).map GroceryListR.id })) := by
    simp [deleteList, hl, hu1, hd, hfilter, Result.ok]
  have hu2 : ((st.updateList lid (fun _ =>
      { l with isDeleted := true, deletedAt := some now, deletedBy := some l.ownerId })).updateUser
        l.ownerId (fun v => { v with defaultListId :=
          ((activeOtherLists st.lists l.ownerId lid).head?).map GroceryListR.id })).getUser
        l.ownerId =
      some { u with defaultListId :=
        ((activeOtherLists st.lists l.ownerId lid).head?).map GroceryListR.id } :=
    getUser_updateUser _ l.ownerId _ u hu1 (fun x hx => hx)
  have hids : (((st.updateList lid (fun _ =>
      { l with isDeleted := true, deletedAt := some now, deletedBy := some l.ownerId })).lists).map
        GroceryListR.id) = st.lists.map GroceryListR.id := by
    show (st.lists.map _).map GroceryListR.id = _
    rw [List.map_map]
    apply List.map_congr_left
    intro x _
    simp only [Function.comp_apply]
    by_cases hxl : (x.id == lid) = true
    · rw [if_pos hxl]
      have hxeq : x.id = lid := by simpa using hxl
      show l.id = x.id
      rw [hlid', hxeq]
    · rw [if_neg hxl]
  have hYfacts : ∀ Y, Y ∈ activeOtherLists st.lists l.ownerId lid →
      Y.isDeleted = false ∧ Y.ownerId = l.ownerId ∧ Y.id ≠ lid ∧ Y.id ≠ 0 ∧
      (st.updateList lid (fun _ =>
        { l with isDeleted := true, deletedAt := some now, deletedBy := some l.ownerId })).getList Y.id = some Y := by
    intro Y hYmem
    obtain ⟨hYin, hYp⟩ := List.mem_filter.mp hYmem
    have h11 := (Bool.and_eq_true_iff.mp hYp).1
    have h12 := (Bool.and_eq_true_iff.mp hYp).2
    have hYo : Y.ownerId = l.ownerId := by
      simpa using (Bool.and_eq_true_iff.mp h11).1
    have hYdel : Y.isDeleted = false := by
      have := (Bool.and_eq_true_iff.mp h11).2
      simpa using this
    have hYnl : Y.id ≠ lid := by simpa using h12
    have hY0 : Y.id ≠ 0 := h0 Y hYin
    have hYmem1 : Y ∈ (st.updateList lid (fun _ =>
        { l with isDeleted := true, deletedAt := some now, deletedBy := some l.ownerId })).lists := by
      show Y ∈ st.lists.map _
      have hgY : (fun x => if x.id == lid then
          ({ l with isDeleted := true, deletedAt := some now, deletedBy := some l.ownerId }
            : GroceryListR) else x) Y = Y := by
        have hb : (Y.id == lid) = false := by simpa using hYnl
        simp [hb]
      rw [← hgY]
      exact List.mem_map_of_mem _ hYin
    have hnd1 : ((((st.updateList lid (fun _ =>
        { l with isDeleted := true, deletedAt := some now, deletedBy := some l.ownerId })).lists).map GroceryListR.id)).Nodup := by
      rw [hids]; exact hnd
    exact ⟨hYdel, hYo, hYnl, hY0,
      find?_eq_of_key GroceryListR.id _ Y Y.id hYmem1 rfl hnd1⟩
  have hconc3 : ∀ d,
      ((activeOtherLists st.lists l.ownerId lid).head?).map GroceryListR.id = some d →
      ∃ l2, (deleteList l.ownerId lid true now st).2.getList d = some l2 ∧
        l2.isDeleted = false ∧ l2.ownerId = l.ownerId ∧ d ≠ lid := by
    intro d hd2
    rw [Option.map_eq_some'] at hd2
    obtain ⟨Y, hY1, hY2⟩ := hd2
    have hYmem : Y ∈ activeOtherLists st.lists l.ownerId lid := by
      cases hrem : activeOtherLists st.lists l.ownerId lid with
      | nil => rw [hrem] at hY1; cases hY1
      | cons a as =>
        rw [hrem] at hY1
        have ha : a = Y := by simpa using hY1
        rw [← ha]
        exact List.mem_cons_self a as
    obtain ⟨hYdel, hYo, hYnl, hY0, hfind⟩ := hYfacts Y hYmem
    refine ⟨Y, ?_, hYdel, hYo, ?_⟩
    · rw [e]
      rw [getList_updateUser, ← hY2]
      exact hfind
    · rw [← hY2]; exact hYnl
  have hmain : (getDefaultList l.ownerId (deleteList l.ownerId lid true now st).2).1 =
      Result.ok ((activeOtherLists st.lists l.ownerId lid).head?) [] := by
    rw [e]
    cases hrem : activeOtherLists st.lists l.ownerId lid with
    | nil =>
      have hu2' := hu2
      rw [hrem] at hu2'
      simp at hu2'
      simp [getDefaultList, hu2', Result.ok]
    | cons Y ys =>
      obtain ⟨hYdel, hYo, hYnl, hY0, hfind⟩ :=
        hYfacts Y (by rw [hrem]; exact List.mem_cons_self Y ys)
      have hu2' := hu2
      rw [hrem] at hu2'
      simp at hu2'
      simp [getDefaultList, hu2', hY0, getList_updateUser, hfind, hYdel, Result.ok]
  refine ⟨by rw [e]; rfl, ⟨_, by rw [e]; exact hu2, rfl⟩, hconc3, hmain, ?_, ?_⟩
  · intro hrem
    rw [hmain, hrem]
    rfl
  · intro Y hrem
    rw [hmain, hrem]
    rfl

/-- C6 witness: deleting default list X of an owner who also has active
list Y makes Y the default, and `get_default_list` then returns Y. -/
theorem deleteList_default_repoint_w :
    (deleteList 1 1 true 7 stC6).1.success = true ∧
    (getDefaultList 1 (deleteList 1 1 true 7 stC6).2).1 =
      Result.ok (some ⟨2, "ב", 1, false, none, none⟩) [] := by
  obtain ⟨h1, -, -, -, -, h6⟩ := deleteList_default_repoint stC6 1 1 7
    ⟨1, "א", 1, false, none, none⟩ ⟨1, some 1⟩ rfl rfl rfl rfl
    (by decide) (by decide)
  exact ⟨h1, h6 ⟨2, "ב", 1, false, none, none⟩ rfl⟩

end BaskIt
